import Mathlib

/-!
Verification of the PlasticWatch review/classification engine and the
client-side offline queue with its sync manager.

Server side: the plpgsql functions `is_admin` (migration security_hardening),
`classify_contribution` (final version, migration 20260126_refactor_contributions)
and `reject_contribution` (latest version, migration security_hardening) are
embedded as pure state transformers over an explicit database state.  A plpgsql
function whose body raises returns via its exception handler with all of the
block effects rolled back; this is modelled by running the body in an `Except`
monad and returning the original state on error.

Column drops matter here: migration 20260126_refactor_contributions drops the
columns `classified_by` and `classified_at` (among others) from `contributions`
and re-creates only `classify_contribution`; `reject_contribution` keeps its
security_hardening body, whose UPDATE statement still assigns those columns.
To capture this, the embedded row type carries every column the engine bodies
reference, a schema is a list of the column names that exist after a given
migration, and an UPDATE raises (as PostgreSQL does) when it assigns a column
absent from the schema.
-/

/-- Role claims visible through auth.jwt(), plus the clock value now() used by
the statements; appMetaRole is the role field of app_metadata, userMetaRole the
role field of user_metadata. -/
structure AuthContext where
  appMetaRole : Option String
  userMetaRole : Option String
  now : Nat
deriving DecidableEq, Repr

/-- The hardened is_admin() of migration security_hardening: app_metadata role
is checked first, with the user_metadata role kept as transitional fallback. -/
def is_admin (ctx : AuthContext) : Bool :=
  if ctx.appMetaRole = some ("admin") then true
  else ctx.userMetaRole = some ("admin")

/-- A row of contributions carrying every column the engine bodies reference.
Columns dropped by 20260126_refactor_contributions are still fields here; which
columns exist in the database is tracked separately by a schema list. -/
structure ContributionRow where
  id : String
  user_id : String
  status : String
  notes : Option String
  classified_by : Option String
  classified_at : Option Nat
deriving DecidableEq, Repr

/-- A row of classifications (table of 20251228_01, enriched by the refactor
migration with product_type, beach_id, company_id and the beach coordinates).
Numeric uuid surrogate for id; float8 coordinates as integers, as no claim
computes on them. -/
structure ClassificationRow where
  id : Nat
  contribution_id : String
  brand : String
  manufacturer : String
  plastic_type : Option String
  classified_by : String
  classified_at : Nat
  admin_notes : Option String
  confidence_level : String
  product_type : Option String
  beach_id : Option Int
  company_id : Option Int
  beach_latitude : Option Int
  beach_longitude : Option Int
  created_at : Nat
  updated_at : Nat
deriving DecidableEq, Repr

/-- Values of the jsonb changes object built by jsonb_build_object. -/
inductive JsonVal
  | str (s : String)
  | num (n : Int)
  | null
deriving DecidableEq, Repr

/-- A row of review_history (migration create_review_history_table). -/
structure HistoryRow where
  contribution_id : String
  admin_id : String
  action : String
  previous_status : Option String
  new_status : Option String
  changes : Option (List (String × JsonVal))
  reason : Option String
  created_at : Nat
deriving DecidableEq, Repr

/-- The mutable database state the engine functions read and write, plus a
fresh-id source standing for gen_random_uuid() on classifications. -/
structure DBState where
  contributions : List ContributionRow
  classifications : List ClassificationRow
  review_history : List HistoryRow
  nextClassificationId : Nat
deriving DecidableEq, Repr

/-- The jsonb value returned by both engine functions, with its fields. -/
structure RpcResult where
  success : Bool
  classification_id : Option Nat
  previous_status : Option String
  error : Option String
deriving DecidableEq, Repr

/-- Column names of contributions after 20260126_refactor_contributions: the
refactor drops classified_by, classified_at, brand, manufacturer, plastic_type,
product_type, beach_id, company_id, beach_latitude, beach_longitude and
location_accuracy, and keeps status, notes, reviewer_feedback and the
submission columns. -/
def finalContributionColumns : List String :=
  ["id", "user_id", "status", "created_at", "latitude", "longitude",
   "beach_name", "brand_suggestion", "plastic_type_suggestion",
   "product_type_suggestion", "manufacturer_suggestion", "notes",
   "reviewer_feedback", "recyclability_indicator", "product_image_url",
   "backside_image_url", "recycling_image_url", "manufacturer_image_url"]

/-- Column names of contributions before the refactor drops, when the
security_hardening bodies were installed. -/
def preRefactorContributionColumns : List String :=
  finalContributionColumns ++
  ["classified_by", "classified_at", "brand", "manufacturer", "plastic_type",
   "product_type", "beach_id", "company_id", "beach_latitude",
   "beach_longitude", "location_accuracy"]

/-- An UPDATE on contributions: applies the row function to every row, after
checking that each assigned column exists in the schema; assigning a dropped
column raises, as in PostgreSQL. -/
def runUpdate (schema : List String) (assigned : List String)
    (f : ContributionRow → ContributionRow) (rows : List ContributionRow) :
    Except String (List ContributionRow) :=
  if assigned.all (fun c => decide (c ∈ schema)) then Except.ok (rows.map f)
  else Except.error ("column does not exist")

/-- Arguments of classify_contribution in its final (refactor) signature. -/
structure ClassifyArgs where
  contribution_id : String
  admin_id : String
  brand : String
  manufacturer : String
  plastic_type : Option String
  admin_notes : Option String
  confidence_level : String
  product_type : Option String
  beach_id : Option Int
  company_id : Option Int
  beach_latitude : Option Int
  beach_longitude : Option Int
deriving DecidableEq, Repr

/-- Arguments of reject_contribution. -/
structure RejectArgs where
  contribution_id : String
  admin_id : String
  reason : Option String
deriving DecidableEq, Repr

/-- SELECT status FROM contributions WHERE id = cid, as the engine reads it. -/
def statusOf (st : DBState) (cid : String) : Option String :=
  (st.contributions.find? (fun r => decide (r.id = cid))).map (fun r => r.status)

/-- The ON CONFLICT (contribution_id) DO UPDATE upsert of the final
classify_contribution: overwrite the existing row for the contribution, else
insert a fresh one; returns the classification id together with the new table
and the next fresh id. -/
def upsertClassification (a : ClassifyArgs) (now : Nat) (cls : List ClassificationRow)
    (nextId : Nat) : Nat × List ClassificationRow × Nat :=
  match cls.find? (fun c => decide (c.contribution_id = a.contribution_id)) with
  | some existing =>
      (existing.id,
       cls.map (fun c =>
         if c.contribution_id = a.contribution_id then
           { c with
             brand := a.brand
             manufacturer := a.manufacturer
             plastic_type := a.plastic_type
             classified_by := a.admin_id
             classified_at := now
             admin_notes := a.admin_notes
             confidence_level := a.confidence_level
             product_type := a.product_type
             beach_id := a.beach_id
             company_id := a.company_id
             beach_latitude := a.beach_latitude
             beach_longitude := a.beach_longitude
             updated_at := now }
         else c),
       nextId)
  | none =>
      (nextId,
       cls ++ [{ id := nextId
                 contribution_id := a.contribution_id
                 brand := a.brand
                 manufacturer := a.manufacturer
                 plastic_type := a.plastic_type
                 classified_by := a.admin_id
                 classified_at := now
                 admin_notes := a.admin_notes
                 confidence_level := a.confidence_level
                 product_type := a.product_type
                 beach_id := a.beach_id
                 company_id := a.company_id
                 beach_latitude := a.beach_latitude
                 beach_longitude := a.beach_longitude
                 created_at := now
                 updated_at := now }],
       nextId + 1)

/-- Optional text rendered into the jsonb changes object. -/
def jsonOfOptStr : Option String → JsonVal
  | some s => JsonVal.str s
  | none => JsonVal.null

/-- Optional integer rendered into the jsonb changes object. -/
def jsonOfOptInt : Option Int → JsonVal
  | some n => JsonVal.num n
  | none => JsonVal.null

/-- Body of the final classify_contribution, step by step: security check,
confidence validation, status read, status-only UPDATE, classification upsert,
history append; yields the classification id and the previous status. -/
def classifyBody (ctx : AuthContext) (schema : List String) (a : ClassifyArgs)
    (st : DBState) : Except String (Nat × String × DBState) :=
  if !(is_admin ctx) then Except.error ("Access denied: Admin privileges required")
  else if !(decide (a.confidence_level ∈ (["high", "medium", "low"] : List String))) then
    Except.error ("Invalid confidence level: " ++ a.confidence_level)
  else
    match st.contributions.find? (fun r => decide (r.id = a.contribution_id)) with
    | none => Except.error ("Contribution not found: " ++ a.contribution_id)
    | some row =>
        match runUpdate schema ["status"]
          (fun r => if r.id = a.contribution_id then { r with status := "classified" } else r)
          st.contributions with
        | Except.error e => Except.error e
        | Except.ok contributions1 =>
            let u := upsertClassification a ctx.now st.classifications st.nextClassificationId
            let entry : HistoryRow :=
              { contribution_id := a.contribution_id
                admin_id := a.admin_id
                action := if row.status = "classified" then "reclassified" else "classified"
                previous_status := some row.status
                new_status := some ("classified")
                changes := some [("brand", JsonVal.str a.brand),
                                 ("manufacturer", JsonVal.str a.manufacturer),
                                 ("plastic_type", jsonOfOptStr a.plastic_type),
                                 ("product_type", jsonOfOptStr a.product_type),
                                 ("beach_id", jsonOfOptInt a.beach_id),
                                 ("confidence_level", JsonVal.str a.confidence_level)]
                reason := none
                created_at := ctx.now }
            Except.ok (u.fst, row.status,
              { contributions := contributions1
                classifications := u.snd.fst
                review_history := st.review_history ++ [entry]
                nextClassificationId := u.snd.snd })

/-- classify_contribution (final version): the body runs inside one block whose
exception handler returns a failure jsonb with every effect rolled back. -/
def classify_contribution (ctx : AuthContext) (schema : List String)
    (a : ClassifyArgs) (st : DBState) : RpcResult × DBState :=
  match classifyBody ctx schema a st with
  | Except.ok (cid, prev, st1) =>
      ({ success := true, classification_id := some cid,
         previous_status := some prev, error := none }, st1)
  | Except.error e =>
      ({ success := false, classification_id := none,
         previous_status := none, error := some e }, st)

/-- Body of reject_contribution (security_hardening version, the latest one in
the repository): security check, status read, an UPDATE that assigns status,
classified_by, classified_at and notes, classification delete, history append. -/
def rejectBody (ctx : AuthContext) (schema : List String) (a : RejectArgs)
    (st : DBState) : Except String (String × DBState) :=
  if !(is_admin ctx) then Except.error ("Access denied: Admin privileges required")
  else
    match st.contributions.find? (fun r => decide (r.id = a.contribution_id)) with
    | none => Except.error ("Contribution not found: " ++ a.contribution_id)
    | some row =>
        match runUpdate schema ["status", "classified_by", "classified_at", "notes"]
          (fun r => if r.id = a.contribution_id then
             { r with status := "rejected", classified_by := some a.admin_id,
                      classified_at := some ctx.now, notes := a.reason }
           else r)
          st.contributions with
        | Except.error e => Except.error e
        | Except.ok contributions1 =>
            let classifications1 :=
              st.classifications.filter (fun c => !(decide (c.contribution_id = a.contribution_id)))
            let entry : HistoryRow :=
              { contribution_id := a.contribution_id
                admin_id := a.admin_id
                action := "rejected"
                previous_status := some row.status
                new_status := some ("rejected")
                changes := none
                reason := a.reason
                created_at := ctx.now }
            Except.ok (row.status,
              { contributions := contributions1
                classifications := classifications1
                review_history := st.review_history ++ [entry]
                nextClassificationId := st.nextClassificationId })

/-- reject_contribution: body plus the rolling-back exception handler. -/
def reject_contribution (ctx : AuthContext) (schema : List String)
    (a : RejectArgs) (st : DBState) : RpcResult × DBState :=
  match rejectBody ctx schema a st with
  | Except.ok (prev, st1) =>
      ({ success := true, classification_id := none,
         previous_status := some prev, error := none }, st1)
  | Except.error e =>
      ({ success := false, classification_id := none,
         previous_status := none, error := some e }, st)

/-- Number of classification rows recorded for one contribution. -/
def countClassifications (st : DBState) (cid : String) : Nat :=
  st.classifications.countP (fun c => decide (c.contribution_id = cid))

/-!
Client side: the offline queue module (offline-queue, exporting
saveToOfflineQueue, getOfflineQueue, removeFromQueue, updateQueueItemStatus)
and the sync manager in the same library (syncQueue, syncSingleContribution).
The IndexedDB object store keyed by id is a list of records; saving writes the
whole queue back (clear plus add), deleting removes by key, and IndexedDB
writes themselves are modelled as reliable.  Network effects (uploadFile, the
supabase insert, auth.getUser) are an environment: per queued item it either
yields uploaded URLs and a successful insert, or the message of the thrown
error.  Date.now() and the random local id are inputs where the source calls
them.
-/

/-- Status union of a queued contribution. -/
inductive QStatus
  | pending
  | uploading
  | failed
  | completed
deriving DecidableEq, Repr

/-- One captured image: an opaque binary payload plus its file name. -/
structure ImageFile where
  blob : String
  name : String
deriving DecidableEq, Repr

/-- The images bundle: one required product image, three optional ones. -/
structure QueueImages where
  productImage : ImageFile
  backsideImage : Option ImageFile
  recyclingImage : Option ImageFile
  manufacturerImage : Option ImageFile
deriving DecidableEq, Repr

/-- A latitude/longitude pair; floats carried as integers since no claim
computes on coordinates. -/
structure LatLng where
  lat : Int
  lng : Int
deriving DecidableEq, Repr

/-- The optional beach location of the form bundle. -/
structure BeachLoc where
  lat : Int
  lng : Int
  name : String
deriving DecidableEq, Repr

/-- The form field bundle of a queued contribution. -/
structure SubmissionForm where
  brand : String
  plasticType : String
  beachName : Option String
  notes : Option String
  location : LatLng
  beachLocation : Option BeachLoc
deriving DecidableEq, Repr

/-- A record of the local durable queue. -/
structure QueuedContribution where
  id : String
  timestamp : Nat
  formData : SubmissionForm
  images : QueueImages
  status : QStatus
  retryCount : Nat
  error : Option String
deriving DecidableEq, Repr

/-- JavaScript truthiness of the optional error argument: absent and the empty
string are both falsy. -/
def jsTruthy : Option String → Bool
  | none => false
  | some s => decide (s ≠ "")

/-- getOfflineQueue: getAll over the object store (the storage-failure catch
branch that returns an empty list is outside the reliable-storage model). -/
def getOfflineQueue (store : List QueuedContribution) : List QueuedContribution :=
  store

/-- saveToOfflineQueue: build the record with status pending and zero retries,
append it to the existing queue, save, and return the generated id.  The id
built from Date.now() and Math.random(), and the timestamp, are the genId and
now inputs. -/
def saveToOfflineQueue (formData : SubmissionForm) (images : QueueImages)
    (genId : String) (now : Nat) (store : List QueuedContribution) :
    String × List QueuedContribution :=
  let contribution : QueuedContribution :=
    { id := genId
      timestamp := now
      formData := formData
      images := images
      status := QStatus.pending
      retryCount := 0
      error := none }
  (contribution.id, getOfflineQueue store ++ [contribution])

/-- removeFromQueue: delete by key. -/
def removeFromQueue (id : String) (store : List QueuedContribution) :
    List QueuedContribution :=
  store.filter (fun q => !(decide (q.id = id)))

/-- The in-place mutation updateQueueItemStatus performs on the record found:
set the status, set the error only when the argument is truthy, and increment
retryCount when the new status is failed. -/
def applyStatusUpdate (status : QStatus) (error : Option String)
    (q : QueuedContribution) : QueuedContribution :=
  { q with
    status := status
    error := if jsTruthy error then error else q.error
    retryCount := if status = QStatus.failed then q.retryCount + 1 else q.retryCount }

/-- Mutating the first record satisfying the predicate, leaving the rest
untouched: the effect of Array.prototype.find followed by an in-place
mutation and a save of the whole queue. -/
def updateFirst (p : QueuedContribution → Bool)
    (f : QueuedContribution → QueuedContribution) :
    List QueuedContribution → List QueuedContribution
  | [] => []
  | q :: rest => if p q then f q :: rest else q :: updateFirst p f rest

/-- updateQueueItemStatus: find the record by id; when present, mutate it and
save the queue back; when absent, do nothing at all. -/
def updateQueueItemStatus (id : String) (status : QStatus) (error : Option String)
    (store : List QueuedContribution) : List QueuedContribution :=
  match (getOfflineQueue store).find? (fun q => decide (q.id = id)) with
  | none => store
  | some _ =>
      updateFirst (fun q => decide (q.id = id)) (applyStatusUpdate status error)
        (getOfflineQueue store)

/-- A remote contributions row as built by syncSingleContribution. -/
structure RemoteContribution where
  user_id : Option String
  product_image_url : Option String
  backside_image_url : Option String
  recycling_image_url : Option String
  manufacturer_image_url : Option String
  latitude : Int
  longitude : Int
  beach_latitude : Option Int
  beach_longitude : Option Int
  beach_name : Option String
  brand_suggestion : String
  plastic_type_suggestion : String
  notes : Option String
  status : String
  created_at : Nat
deriving DecidableEq, Repr

/-- The network and auth environment of one sync pass: the current user id,
the public URL a successful upload returns for a file name, and per item id
either none (the uploads and the insert all succeed) or the message of the
error thrown at whichever step failed. -/
structure SyncEnv where
  userId : Option String
  uploadUrl : String → String
  itemFailure : String → Option String

/-- The running totals reported to listeners and returned by syncQueue (the
optional current-item label is presentation only and not carried). -/
structure SyncStats where
  total : Nat
  completed : Nat
  failed : Nat
deriving DecidableEq, Repr

/-- The whole mutable world of the sync manager: the local object store, the
remote contributions table, the module-level isSyncing flag and navigator
connectivity. -/
structure SyncWorld where
  store : List QueuedContribution
  remote : List RemoteContribution
  isSyncing : Bool
  online : Bool
deriving Repr

/-- JavaScript a || null on an optional string: empty strings collapse to
null. -/
def jsOrNullStr : Option String → Option String
  | none => none
  | some s => if s = "" then none else some s

/-- JavaScript a || null on an optional number: zero collapses to null. -/
def jsOrNullInt : Option Int → Option Int
  | none => none
  | some n => if n = 0 then none else some n

/-- The contributionData object built in syncSingleContribution, with remote
status forced to pending and the creation time taken from the local capture
timestamp. -/
def mkRemoteContribution (env : SyncEnv) (item : QueuedContribution) :
    RemoteContribution :=
  { user_id := env.userId
    product_image_url := some (env.uploadUrl item.images.productImage.name)
    backside_image_url := item.images.backsideImage.map (fun f => env.uploadUrl f.name)
    recycling_image_url := item.images.recyclingImage.map (fun f => env.uploadUrl f.name)
    manufacturer_image_url := item.images.manufacturerImage.map (fun f => env.uploadUrl f.name)
    latitude := item.formData.location.lat
    longitude := item.formData.location.lng
    beach_latitude := jsOrNullInt (item.formData.beachLocation.map (fun b => b.lat))
    beach_longitude := jsOrNullInt (item.formData.beachLocation.map (fun b => b.lng))
    beach_name := jsOrNullStr item.formData.beachName
    brand_suggestion := item.formData.brand
    plastic_type_suggestion := item.formData.plasticType
    notes := jsOrNullStr item.formData.notes
    status := "pending"
    created_at := item.timestamp }

/-- syncSingleContribution: mark the item uploading, then run the network
steps; on success insert the remote row and mark the item completed, on
failure report the thrown message (the remote insert has not happened). -/
def syncSingleContribution (env : SyncEnv) (item : QueuedContribution)
    (w : SyncWorld) : SyncWorld × Option String :=
  let store1 := updateQueueItemStatus item.id QStatus.uploading none w.store
  match env.itemFailure item.id with
  | some e => ({ w with store := store1 }, some e)
  | none =>
      let row := mkRemoteContribution env item
      let store2 := updateQueueItemStatus item.id QStatus.completed none store1
      ({ w with store := store2, remote := w.remote ++ [row] }, none)

/-- The per-item loop of syncQueue: on success remove the local item and count
it completed; on any failure mark it failed with the captured error and count
it failed, then continue with the remaining items. -/
def syncLoop (env : SyncEnv) (items : List QueuedContribution)
    (stats : SyncStats) (w : SyncWorld) : SyncStats × SyncWorld :=
  match items with
  | [] => (stats, w)
  | item :: rest =>
      match syncSingleContribution env item w with
      | (w1, none) =>
          let w2 := { w1 with store := removeFromQueue item.id w1.store }
          syncLoop env rest { stats with completed := stats.completed + 1 } w2
      | (w1, some e) =>
          let w2 :=
            { w1 with store := updateQueueItemStatus item.id QStatus.failed (some e) w1.store }
          syncLoop env rest { stats with failed := stats.failed + 1 } w2

/-- The item selection of a pass: every queued item whose status is pending or
failed at the start of the pass. -/
def selectedItems (store : List QueuedContribution) : List QueuedContribution :=
  store.filter (fun item =>
    decide (item.status = QStatus.pending) || decide (item.status = QStatus.failed))

/-- syncQueue: a re-entrant or offline call returns zero totals immediately;
otherwise the pass sets the isSyncing flag, drains the selected items and
clears the flag. -/
def syncQueue (env : SyncEnv) (w : SyncWorld) : SyncStats × SyncWorld :=
  if w.isSyncing then ({ total := 0, completed := 0, failed := 0 }, w)
  else if !w.online then ({ total := 0, completed := 0, failed := 0 }, w)
  else
    let w1 := { w with isSyncing := true }
    let pendingItems := selectedItems (getOfflineQueue w1.store)
    let r := syncLoop env pendingItems
      { total := pendingItems.length, completed := 0, failed := 0 } w1
    (r.fst, { r.snd with isSyncing := false })

/-- Consecutive sync passes, each with its own network environment. -/
def syncPasses : List SyncEnv → SyncWorld → SyncWorld
  | [], w => w
  | env :: rest, w => syncPasses rest (syncQueue env w).snd

/-!
Concrete values used by the closed theorems and by the witnesses of the
conditional ones.
-/

/-- Demo admin caller: admin role in the protected app_metadata claim. -/
def adminCtx : AuthContext :=
  { appMetaRole := some ("admin"), userMetaRole := none, now := 7 }

/-- Demo non-admin caller: no admin role in either claim. -/
def userCtx : AuthContext :=
  { appMetaRole := none, userMetaRole := some ("user"), now := 7 }

/-- Database state holding one contribution with the given status. -/
def engineDemoState (s : String) : DBState :=
  { contributions := [{ id := "c1", user_id := "u1", status := s, notes := none,
                        classified_by := none, classified_at := none }]
    classifications := []
    review_history := []
    nextClassificationId := 1 }

/-- Demo classify arguments targeting the demo contribution. -/
def demoClassifyArgs : ClassifyArgs :=
  { contribution_id := "c1", admin_id := "a1", brand := "BrandX",
    manufacturer := "MakerY", plastic_type := some ("PET"), admin_notes := none,
    confidence_level := "high", product_type := none, beach_id := none,
    company_id := none, beach_latitude := none, beach_longitude := none }

/-- Demo classify arguments carrying an invalid confidence level. -/
def urgentClassifyArgs : ClassifyArgs :=
  { demoClassifyArgs with confidence_level := "urgent" }

/-- Demo reject arguments targeting the demo contribution. -/
def demoRejectArgs : RejectArgs :=
  { contribution_id := "c1", admin_id := "a1", reason := some ("spam") }

/-- Demo form bundle for queued contributions. -/
def demoForm : SubmissionForm :=
  { brand := "BrandX", plasticType := "PET", beachName := some ("Cove"),
    notes := none, location := { lat := 1, lng := 2 }, beachLocation := none }

/-- Demo images bundle with two of the four images present. -/
def demoImages : QueueImages :=
  { productImage := { blob := "p-bytes", name := "p.jpg" }
    backsideImage := some { blob := "b-bytes", name := "b.jpg" }
    recyclingImage := none
    manufacturerImage := none }

/-- Demo queued item with the given id, status and retry count. -/
def qItem (id : String) (status : QStatus) (retry : Nat) : QueuedContribution :=
  { id := id, timestamp := 10, formData := demoForm, images := demoImages,
    status := status, retryCount := retry, error := none }

/-- Demo sync environment in which every item syncs. -/
def demoEnv : SyncEnv :=
  { userId := some ("u9"), uploadUrl := fun n => ("https://cdn/") ++ n,
    itemFailure := fun _ => none }

/-- A world in which a sync pass is already marked as running. -/
def busyWorld : SyncWorld :=
  { store := [qItem ("a") QStatus.pending 0], remote := [], isSyncing := true,
    online := true }

/-- C2.  Against the post-refactor schema the latest reject_contribution can
never return success: its UPDATE still assigns classified_by and
classified_at, columns the refactor migration dropped, so the statement
raises, the exception handler answers success false, and no table changes.
The claim (success implies only status changed, no classification row, one
rejected history row) is the documented intent; the code breaks it by making
success unreachable. -/
theorem reject_on_final_schema_never_succeeds (ctx : AuthContext) (a : RejectArgs)
    (st : DBState) :
    (reject_contribution ctx finalContributionColumns a st).fst.success = false ∧
    (reject_contribution ctx finalContributionColumns a st).snd = st := by
  have hcols : (["status", "classified_by", "classified_at", "notes"].all
      (fun c => decide (c ∈ finalContributionColumns))) = false := by decide
  unfold reject_contribution rejectBody
  cases hadm : is_admin ctx with
  | false => simp
  | true =>
      cases hf : st.contributions.find? (fun r => decide (r.id = a.contribution_id)) with
      | none => simp
      | some row => simp [runUpdate, hcols]

/-- C3.  A caller for whom is_admin() is false gets the structured
authorization failure from both classify_contribution and
reject_contribution, with any arguments, any schema and any database state,
and the state is returned untouched. -/
theorem non_admin_rpcs_fail_and_mutate_nothing (ctx : AuthContext)
    (schema : List String) (ca : ClassifyArgs) (ra : RejectArgs) (st : DBState)
    (h : is_admin ctx = false) :
    classify_contribution ctx schema ca st =
      ({ success := false, classification_id := none, previous_status := none,
         error := some ("Access denied: Admin privileges required") }, st) ∧
    reject_contribution ctx schema ra st =
      ({ success := false, classification_id := none, previous_status := none,
         error := some ("Access denied: Admin privileges required") }, st) := by
  constructor <;>
    simp [classify_contribution, reject_contribution, classifyBody, rejectBody, h]

/-- Witness for C3 at a concrete non-admin caller and a concrete state. -/
theorem non_admin_rpcs_fail_witness :
    classify_contribution userCtx finalContributionColumns demoClassifyArgs
        (engineDemoState ("pending")) =
      ({ success := false, classification_id := none, previous_status := none,
         error := some ("Access denied: Admin privileges required") },
       engineDemoState ("pending")) ∧
    reject_contribution userCtx finalContributionColumns demoRejectArgs
        (engineDemoState ("pending")) =
      ({ success := false, classification_id := none, previous_status := none,
         error := some ("Access denied: Admin privileges required") },
       engineDemoState ("pending")) :=
  non_admin_rpcs_fail_and_mutate_nothing userCtx finalContributionColumns
    demoClassifyArgs demoRejectArgs (engineDemoState ("pending")) (by decide)

/-- C4.  Any confidence level outside high, medium, low makes
classify_contribution answer success false and leave the database state
exactly as it was, whatever the caller and schema. -/
theorem invalid_confidence_fails_and_mutates_nothing (ctx : AuthContext)
    (schema : List String) (a : ClassifyArgs) (st : DBState)
    (h : a.confidence_level ∉ (["high", "medium", "low"] : List String)) :
    (classify_contribution ctx schema a st).fst.success = false ∧
    (classify_contribution ctx schema a st).snd = st := by
  cases hadm : is_admin ctx with
  | false => simp [classify_contribution, classifyBody, hadm]
  | true => simp [classify_contribution, classifyBody, hadm, h]

/-- Witness for C4 at the confidence level urgent. -/
theorem invalid_confidence_witness :
    (classify_contribution adminCtx finalContributionColumns urgentClassifyArgs
        (engineDemoState ("pending"))).fst.success = false ∧
    (classify_contribution adminCtx finalContributionColumns urgentClassifyArgs
        (engineDemoState ("pending"))).snd = engineDemoState ("pending") :=
  invalid_confidence_fails_and_mutates_nothing adminCtx finalContributionColumns
    urgentClassifyArgs (engineDemoState ("pending")) (by decide)

/-- C5.  On the deployed (post-refactor) schema, classify_contribution
succeeds from each of the three statuses, always landing on classified and
logging reclassified exactly when the prior status was classified; but
reject_contribution fails from each of the three statuses and changes
nothing, so the claimed state machine in which every state accepts both
operations does not hold on the code as deployed. -/
theorem every_status_accepts_classify_but_deployed_reject_always_fails :
    ((classify_contribution adminCtx finalContributionColumns demoClassifyArgs
        (engineDemoState ("pending"))).fst.success = true ∧
     statusOf (classify_contribution adminCtx finalContributionColumns
        demoClassifyArgs (engineDemoState ("pending"))).snd ("c1") = some ("classified") ∧
     ((classify_contribution adminCtx finalContributionColumns demoClassifyArgs
        (engineDemoState ("pending"))).snd.review_history.map (fun h => h.action))
       = ["classified"]) ∧
    ((classify_contribution adminCtx finalContributionColumns demoClassifyArgs
        (engineDemoState ("classified"))).fst.success = true ∧
     statusOf (classify_contribution adminCtx finalContributionColumns
        demoClassifyArgs (engineDemoState ("classified"))).snd ("c1") = some ("classified") ∧
     ((classify_contribution adminCtx finalContributionColumns demoClassifyArgs
        (engineDemoState ("classified"))).snd.review_history.map (fun h => h.action))
       = ["reclassified"]) ∧
    ((classify_contribution adminCtx finalContributionColumns demoClassifyArgs
        (engineDemoState ("rejected"))).fst.success = true ∧
     statusOf (classify_contribution adminCtx finalContributionColumns
        demoClassifyArgs (engineDemoState ("rejected"))).snd ("c1") = some ("classified") ∧
     ((classify_contribution adminCtx finalContributionColumns demoClassifyArgs
        (engineDemoState ("rejected"))).snd.review_history.map (fun h => h.action))
       = ["classified"]) ∧
    ((reject_contribution adminCtx finalContributionColumns demoRejectArgs
        (engineDemoState ("pending"))).fst.success = false ∧
     (reject_contribution adminCtx finalContributionColumns demoRejectArgs
        (engineDemoState ("pending"))).snd = engineDemoState ("pending")) ∧
    ((reject_contribution adminCtx finalContributionColumns demoRejectArgs
        (engineDemoState ("classified"))).fst.success = false ∧
     (reject_contribution adminCtx finalContributionColumns demoRejectArgs
        (engineDemoState ("classified"))).snd = engineDemoState ("classified")) ∧
    ((reject_contribution adminCtx finalContributionColumns demoRejectArgs
        (engineDemoState ("rejected"))).fst.success = false ∧
     (reject_contribution adminCtx finalContributionColumns demoRejectArgs
        (engineDemoState ("rejected"))).snd = engineDemoState ("rejected")) := by
  decide

/-- C6.  A syncQueue call made while a pass is marked in progress, or while
the device is offline, returns zero totals and the world exactly as it was:
no upload, no remote insert, no queue change. -/
theorem syncQueue_busy_or_offline_is_noop (env : SyncEnv) (w : SyncWorld)
    (h : w.isSyncing = true ∨ w.online = false) :
    syncQueue env w = ({ total := 0, completed := 0, failed := 0 }, w) := by
  rcases h with h | h
  · simp [syncQueue, h]
  · cases hs : w.isSyncing <;> simp [syncQueue, h, hs]

/-- Witness for C6 at a world already syncing. -/
theorem syncQueue_busy_witness :
    syncQueue demoEnv busyWorld = ({ total := 0, completed := 0, failed := 0 }, busyWorld) :=
  syncQueue_busy_or_offline_is_noop demoEnv busyWorld (Or.inl rfl)

/-- C8.  Enqueueing any form bundle with any image set stores a record with
status pending and retryCount zero under the generated id, returns that id,
and a subsequent listing of the queue contains the record with the form
fields and every image payload intact. -/
theorem enqueue_then_list_roundtrip (formData : SubmissionForm)
    (images : QueueImages) (genId : String) (now : Nat)
    (store : List QueuedContribution) :
    (saveToOfflineQueue formData images genId now store).fst = genId ∧
    ({ id := genId, timestamp := now, formData := formData, images := images,
       status := QStatus.pending, retryCount := 0, error := none } : QueuedContribution)
      ∈ getOfflineQueue (saveToOfflineQueue formData images genId now store).snd := by
  refine ⟨rfl, ?_⟩
  simp [saveToOfflineQueue, getOfflineQueue]

/-- C9.  updateQueueItemStatus with an id that matches no stored item is a
silent no-op: the stored queue comes back unchanged. -/
theorem updateQueueItemStatus_unknown_id_noop (id : String) (status : QStatus)
    (err : Option String) (store : List QueuedContribution)
    (h : ∀ q ∈ store, q.id ≠ id) :
    updateQueueItemStatus id status err store = store := by
  have hf : (getOfflineQueue store).find? (fun q => decide (q.id = id)) = none := by
    refine List.find?_eq_none.mpr ?_
    intro q hq
    simpa using h q hq
  simp [updateQueueItemStatus, hf]

/-- Witness for C9 at a queue whose only item has a different id. -/
theorem updateQueueItemStatus_unknown_id_witness :
    updateQueueItemStatus ("zz") QStatus.failed (some ("boom"))
        [qItem ("a") QStatus.pending 0] = [qItem ("a") QStatus.pending 0] :=
  updateQueueItemStatus_unknown_id_noop ("zz") QStatus.failed (some ("boom"))
    [qItem ("a") QStatus.pending 0] (by decide)

/-!
Helper lemmas about the queue store operations, used by the sync-pass
theorems.  Ids are unique in the IndexedDB object store (it is keyed by id),
so the lemmas take a Nodup hypothesis on the id listing where needed.
-/

/-- updateFirst changes nothing when no element satisfies the predicate. -/
theorem updateFirst_of_forall_false (p : QueuedContribution → Bool)
    (f : QueuedContribution → QueuedContribution) (l : List QueuedContribution)
    (h : ∀ x ∈ l, p x = false) : updateFirst p f l = l := by
  induction l with
  | nil => rfl
  | cons a t ih =>
      have ha : p a = false := h a (List.mem_cons_self a t)
      simp [updateFirst, ha]
      exact ih (fun x hx => h x (List.mem_cons_of_mem a hx))

/-- updateQueueItemStatus is updateFirst on the matching predicate. -/
theorem updateQueueItemStatus_eq (id : String) (status : QStatus)
    (err : Option String) (store : List QueuedContribution) :
    updateQueueItemStatus id status err store =
      updateFirst (fun q => decide (q.id = id)) (applyStatusUpdate status err) store := by
  unfold updateQueueItemStatus getOfflineQueue
  cases hf : store.find? (fun q => decide (q.id = id)) with
  | some q => rfl
  | none =>
      have h : ∀ x ∈ store, (decide (x.id = id)) = false := by
        intro x hx
        have := List.find?_eq_none.mp hf x hx
        simpa using this
      exact (updateFirst_of_forall_false _ _ store h).symm

/-- applyStatusUpdate keeps the record id. -/
theorem applyStatusUpdate_id (status : QStatus) (err : Option String)
    (q : QueuedContribution) : (applyStatusUpdate status err q).id = q.id := rfl

/-- updateFirst with an id-preserving function keeps the id listing. -/
theorem updateFirst_map_id (p : QueuedContribution → Bool)
    (f : QueuedContribution → QueuedContribution)
    (hf : ∀ q, (f q).id = q.id) (l : List QueuedContribution) :
    (updateFirst p f l).map (fun q => q.id) = l.map (fun q => q.id) := by
  induction l with
  | nil => rfl
  | cons a t ih =>
      cases hp : p a with
      | true => simp [updateFirst, hp, hf]
      | false => simp [updateFirst, hp, ih]

/-- updateQueueItemStatus keeps the id listing. -/
theorem updateQueueItemStatus_map_id (id : String) (status : QStatus)
    (err : Option String) (store : List QueuedContribution) :
    (updateQueueItemStatus id status err store).map (fun q => q.id)
      = store.map (fun q => q.id) := by
  rw [updateQueueItemStatus_eq]
  exact updateFirst_map_id _ (applyStatusUpdate status err) (fun q => rfl) store

/-- A record whose id differs from the updated one stays in the store. -/
theorem mem_updateFirst_of_pred_false (p : QueuedContribution → Bool)
    (f : QueuedContribution → QueuedContribution) {x : QueuedContribution}
    {l : List QueuedContribution} (hx : x ∈ l) (hpx : p x = false) :
    x ∈ updateFirst p f l := by
  induction l with
  | nil => cases hx
  | cons a t ih =>
      rcases List.mem_cons.mp hx with rfl | hxt
      · simp [updateFirst, hpx]
      · cases hp : p a with
        | true => simp [updateFirst, hp, List.mem_cons_of_mem, hxt]
        | false =>
            simp only [updateFirst, hp, Bool.false_eq_true, if_false]
            exact List.mem_cons_of_mem a (ih hxt)

/-- A record whose id differs stays in the store across
updateQueueItemStatus. -/
theorem mem_updateQueueItemStatus_of_ne (id : String) (status : QStatus)
    (err : Option String) {r : QueuedContribution}
    {store : List QueuedContribution} (hr : r ∈ store) (hne : r.id ≠ id) :
    r ∈ updateQueueItemStatus id status err store := by
  rw [updateQueueItemStatus_eq]
  exact mem_updateFirst_of_pred_false _ _ hr (by simpa using hne)

/-- With unique ids, updateFirst on the id of a stored record rewrites that
record through the function. -/
theorem mem_updateFirst_self (f : QueuedContribution → QueuedContribution)
    {l : List QueuedContribution} {i : QueuedContribution} (hi : i ∈ l)
    (hn : (l.map (fun q => q.id)).Nodup) :
    f i ∈ updateFirst (fun q => decide (q.id = i.id)) f l := by
  induction l with
  | nil => cases hi
  | cons a t ih =>
      rw [List.map_cons, List.nodup_cons] at hn
      rcases List.mem_cons.mp hi with rfl | hit
      · simp [updateFirst]
      · have hpa : (decide (a.id = i.id)) = false := by
          refine decide_eq_false ?_
          intro he
          exact hn.1 (he ▸ List.mem_map_of_mem (fun q => q.id) hit)
        simp only [updateFirst, hpa, Bool.false_eq_true, if_false]
        exact List.mem_cons_of_mem a (ih hit hn.2)

/-- With unique ids, updating the status of a stored record puts its updated
version in the store. -/
theorem mem_updateQueueItemStatus_self (status : QStatus) (err : Option String)
    {store : List QueuedContribution} {i : QueuedContribution} (hi : i ∈ store)
    (hn : (store.map (fun q => q.id)).Nodup) :
    applyStatusUpdate status err i ∈ updateQueueItemStatus i.id status err store := by
  rw [updateQueueItemStatus_eq]
  exact mem_updateFirst_self _ hi hn

/-- A record with a different id survives removeFromQueue. -/
theorem mem_removeFromQueue_of_ne (id : String) {r : QueuedContribution}
    {store : List QueuedContribution} (hr : r ∈ store) (hne : r.id ≠ id) :
    r ∈ removeFromQueue id store := by
  unfold removeFromQueue
  refine List.mem_filter.mpr ⟨hr, by simpa using hne⟩

/-- Nothing left in removeFromQueue carries the removed id. -/
theorem removeFromQueue_id_ne (id : String) {r : QueuedContribution}
    {store : List QueuedContribution} (hr : r ∈ removeFromQueue id store) :
    r.id ≠ id := by
  have := List.of_mem_filter hr
  simpa using this

/-- removeFromQueue only keeps records of the original store. -/
theorem mem_of_mem_removeFromQueue (id : String) {r : QueuedContribution}
    {store : List QueuedContribution} (hr : r ∈ removeFromQueue id store) :
    r ∈ store := (List.mem_filter.mp hr).1

/-- The id listing of removeFromQueue is a sublist of the original one. -/
theorem removeFromQueue_map_id_sublist (id : String)
    (store : List QueuedContribution) :
    ((removeFromQueue id store).map (fun q => q.id)).Sublist
      (store.map (fun q => q.id)) :=
  List.Sublist.map _ (List.filter_sublist store)

/-- With unique ids, two stored records sharing an id are the same record. -/
theorem eq_of_mem_of_id_eq {l : List QueuedContribution}
    (hn : (l.map (fun q => q.id)).Nodup) {a b : QueuedContribution}
    (ha : a ∈ l) (hb : b ∈ l) (hid : a.id = b.id) : a = b := by
  induction l with
  | nil => cases ha
  | cons c t ih =>
      rw [List.map_cons, List.nodup_cons] at hn
      rcases List.mem_cons.mp ha with rfl | hat
      · rcases List.mem_cons.mp hb with rfl | hbt
        · rfl
        · exact absurd (hid ▸ List.mem_map_of_mem (fun q => q.id) hbt) hn.1
      · rcases List.mem_cons.mp hb with rfl | hbt
        · exact absurd (hid ▸ List.mem_map_of_mem (fun q => q.id) hat) hn.1
        · exact ih hn.2 hat hbt

/-- An item id for which the environment reports no failing step. -/
def itemSucceeds (env : SyncEnv) (i : QueuedContribution) : Bool :=
  (env.itemFailure i.id).isNone

/-- The record a failing item becomes: marked failed, retry count bumped by
one, and the captured message stored when it is truthy. -/
def failedRecord (i : QueuedContribution) (e : String) : QueuedContribution :=
  { i with status := QStatus.failed
           retryCount := i.retryCount + 1
           error := if jsTruthy (some e) then some e else i.error }

/-- Marking uploading and then failed is exactly failedRecord. -/
theorem failedRecord_eq (i : QueuedContribution) (e : String) :
    applyStatusUpdate QStatus.failed (some e)
      (applyStatusUpdate QStatus.uploading none i) = failedRecord i e := by
  simp [applyStatusUpdate, failedRecord, jsTruthy]

/-- The world after one successfully synced item: marked uploading then
completed, removed from the local store, its remote row appended. -/
def stepSuccessWorld (env : SyncEnv) (i : QueuedContribution) (w : SyncWorld) :
    SyncWorld :=
  { w with
    store := removeFromQueue i.id
      (updateQueueItemStatus i.id QStatus.completed none
        (updateQueueItemStatus i.id QStatus.uploading none w.store))
    remote := w.remote ++ [mkRemoteContribution env i] }

/-- The world after one failing item: marked uploading then failed, kept in
the local store, no remote row. -/
def stepFailWorld (i : QueuedContribution) (e : String) (w : SyncWorld) :
    SyncWorld :=
  { w with
    store := updateQueueItemStatus i.id QStatus.failed (some e)
      (updateQueueItemStatus i.id QStatus.uploading none w.store) }

/-- Unfolding one successful iteration of the sync loop. -/
theorem syncLoop_cons_success (env : SyncEnv) (i : QueuedContribution)
    (rest : List QueuedContribution) (stats : SyncStats) (w : SyncWorld)
    (hfi : env.itemFailure i.id = none) :
    syncLoop env (i :: rest) stats w
      = syncLoop env rest { stats with completed := stats.completed + 1 }
          (stepSuccessWorld env i w) := by
  simp [syncLoop, syncSingleContribution, hfi, stepSuccessWorld]

/-- Unfolding one failing iteration of the sync loop. -/
theorem syncLoop_cons_fail (env : SyncEnv) (i : QueuedContribution)
    (rest : List QueuedContribution) (stats : SyncStats) (w : SyncWorld)
    (e : String) (hfi : env.itemFailure i.id = some e) :
    syncLoop env (i :: rest) stats w
      = syncLoop env rest { stats with failed := stats.failed + 1 }
          (stepFailWorld i e w) := by
  simp [syncLoop, syncSingleContribution, hfi, stepFailWorld]

/-- Full specification of the per-item sync loop, by induction over the
selected items: totals, id uniqueness, no new ids, frame for untouched ids,
absence of successfully synced items, presence of the failed records, and the
exact remote rows appended. -/
theorem syncLoop_spec (env : SyncEnv) (items : List QueuedContribution) :
    ∀ (stats : SyncStats) (w : SyncWorld),
      (∀ i ∈ items, i ∈ w.store) →
      ((w.store.map (fun q => q.id)).Nodup) →
      ((items.map (fun q => q.id)).Nodup) →
      (syncLoop env items stats w).fst.total = stats.total ∧
      (syncLoop env items stats w).fst.completed
        = stats.completed + items.countP (itemSucceeds env) ∧
      (syncLoop env items stats w).fst.failed
        = stats.failed + items.countP (fun i => !(itemSucceeds env i)) ∧
      ((syncLoop env items stats w).snd.store.map (fun q => q.id)).Nodup ∧
      (∀ r ∈ (syncLoop env items stats w).snd.store,
         r.id ∈ w.store.map (fun q => q.id)) ∧
      (∀ r ∈ w.store, r.id ∉ items.map (fun q => q.id) →
         r ∈ (syncLoop env items stats w).snd.store) ∧
      (∀ i ∈ items, itemSucceeds env i = true →
         ∀ r ∈ (syncLoop env items stats w).snd.store, r.id ≠ i.id) ∧
      (∀ i ∈ items, ∀ e, env.itemFailure i.id = some e →
         failedRecord i e ∈ (syncLoop env items stats w).snd.store) ∧
      (syncLoop env items stats w).snd.remote
        = w.remote ++ (items.filter (itemSucceeds env)).map (mkRemoteContribution env) ∧
      (syncLoop env items stats w).snd.isSyncing = w.isSyncing ∧
      (syncLoop env items stats w).snd.online = w.online := by
  induction items with
  | nil =>
      intro stats w hsub hwn hin
      refine ⟨rfl, by simp [syncLoop], by simp [syncLoop], by simpa [syncLoop] using hwn,
        ?_, ?_, by simp [syncLoop], by simp [syncLoop], by simp [syncLoop], rfl, rfl⟩
      · intro r hr
        have hr2 : r ∈ w.store := by simpa [syncLoop] using hr
        exact List.mem_map_of_mem (fun q => q.id) hr2
      · intro r hr hnotin
        simpa [syncLoop] using hr
  | cons i rest ih =>
      intro stats w hsub hwn hin
      have hiw : i ∈ w.store := hsub i (List.mem_cons_self i rest)
      rw [List.map_cons, List.nodup_cons] at hin
      have hrestid : ∀ j ∈ rest, j.id ≠ i.id := by
        intro j hj he
        exact hin.1 (he ▸ List.mem_map_of_mem (fun q => q.id) hj)
      cases hfi : env.itemFailure i.id with
      | none =>
          have hsucc : itemSucceeds env i = true := by simp [itemSucceeds, hfi]
          rw [syncLoop_cons_success env i rest stats w hfi]
          have hmapid1 :
              ((updateQueueItemStatus i.id QStatus.completed none
                 (updateQueueItemStatus i.id QStatus.uploading none w.store)).map
                   (fun q => q.id)) = w.store.map (fun q => q.id) := by
            rw [updateQueueItemStatus_map_id, updateQueueItemStatus_map_id]
          have hsubl :
              ((stepSuccessWorld env i w).store.map (fun q => q.id)).Sublist
                (w.store.map (fun q => q.id)) := by
            rw [show (stepSuccessWorld env i w).store
                  = removeFromQueue i.id
                      (updateQueueItemStatus i.id QStatus.completed none
                        (updateQueueItemStatus i.id QStatus.uploading none w.store))
                from rfl]
            rw [← hmapid1]
            exact removeFromQueue_map_id_sublist i.id _
          have hwn2 : ((stepSuccessWorld env i w).store.map (fun q => q.id)).Nodup :=
            List.Nodup.sublist hsubl hwn
          have hframe2 : ∀ r ∈ w.store, r.id ≠ i.id → r ∈ (stepSuccessWorld env i w).store := by
            intro r hr hne
            exact mem_removeFromQueue_of_ne i.id
              (mem_updateQueueItemStatus_of_ne _ _ _
                (mem_updateQueueItemStatus_of_ne _ _ _ hr hne) hne) hne
          have hsub2 : ∀ j ∈ rest, j ∈ (stepSuccessWorld env i w).store := by
            intro j hj
            exact hframe2 j (hsub j (List.mem_cons_of_mem i hj)) (hrestid j hj)
          have hnotarget : ∀ r ∈ (stepSuccessWorld env i w).store, r.id ≠ i.id := by
            intro r hr
            exact removeFromQueue_id_ne i.id hr
          obtain ⟨ht, hc, hfl, hnd, hids, hfr, hgone, hfail, hrem, hsy, hon⟩ :=
            ih { stats with completed := stats.completed + 1 } (stepSuccessWorld env i w)
              hsub2 hwn2 hin.2
          have hidsw : ∀ r ∈ (syncLoop env rest { stats with completed := stats.completed + 1 }
              (stepSuccessWorld env i w)).snd.store, r.id ∈ w.store.map (fun q => q.id) := by
            intro r hr
            rcases List.mem_map.mp (hids r hr) with ⟨r2, hr2, hr2id⟩
            have : r2.id ∈ w.store.map (fun q => q.id) := by
              have hr2w := mem_of_mem_removeFromQueue i.id hr2
              rw [← hmapid1]
              exact List.mem_map_of_mem (fun q => q.id) hr2w
            exact hr2id ▸ this
          refine ⟨ht, ?_, ?_, hnd, hidsw, ?_, ?_, ?_, ?_, hsy, hon⟩
          · rw [hc, List.countP_cons]
            simp [hsucc]
            omega
          · rw [hfl, List.countP_cons]
            simp [hsucc]
          · intro r hr hnotin
            have hne : r.id ≠ i.id := by
              intro he
              exact hnotin (by rw [List.map_cons, he]; exact List.mem_cons_self _ _)
            have hnotrest : r.id ∉ rest.map (fun q => q.id) := by
              intro hm
              exact hnotin (by rw [List.map_cons]; exact List.mem_cons_of_mem _ hm)
            exact hfr r (hframe2 r hr hne) hnotrest
          · intro j hj hjs r hr
            rcases List.mem_cons.mp hj with rfl | hjr
            · rcases List.mem_map.mp (hids r hr) with ⟨r2, hr2, hr2id⟩
              exact hr2id ▸ hnotarget r2 hr2
            · exact hgone j hjr hjs r hr
          · intro j hj e hje
            rcases List.mem_cons.mp hj with rfl | hjr
            · rw [hfi] at hje
              cases hje
            · exact hfail j hjr e hje
          · rw [hrem]
            rw [show (stepSuccessWorld env i w).remote
                  = w.remote ++ [mkRemoteContribution env i] from rfl]
            rw [List.filter_cons_of_pos hsucc]
            simp
      | some e =>
          have hsucc : itemSucceeds env i = false := by simp [itemSucceeds, hfi]
          rw [syncLoop_cons_fail env i rest stats w e hfi]
          have hmapid2 : ((stepFailWorld i e w).store.map (fun q => q.id))
              = w.store.map (fun q => q.id) := by
            rw [show (stepFailWorld i e w).store
                  = updateQueueItemStatus i.id QStatus.failed (some e)
                      (updateQueueItemStatus i.id QStatus.uploading none w.store)
                from rfl]
            rw [updateQueueItemStatus_map_id, updateQueueItemStatus_map_id]
          have hwn2 : ((stepFailWorld i e w).store.map (fun q => q.id)).Nodup := by
            rw [hmapid2]; exact hwn
          have hframe2 : ∀ r ∈ w.store, r.id ≠ i.id → r ∈ (stepFailWorld i e w).store := by
            intro r hr hne
            exact mem_updateQueueItemStatus_of_ne _ _ _
              (mem_updateQueueItemStatus_of_ne _ _ _ hr hne) hne
          have hsub2 : ∀ j ∈ rest, j ∈ (stepFailWorld i e w).store := by
            intro j hj
            exact hframe2 j (hsub j (List.mem_cons_of_mem i hj)) (hrestid j hj)
          have hfailmem : failedRecord i e ∈ (stepFailWorld i e w).store := by
            have h1 : applyStatusUpdate QStatus.uploading none i
                ∈ updateQueueItemStatus i.id QStatus.uploading none w.store :=
              mem_updateQueueItemStatus_self _ _ hiw hwn
            have hn1 : ((updateQueueItemStatus i.id QStatus.uploading none w.store).map
                (fun q => q.id)).Nodup := by
              rw [updateQueueItemStatus_map_id]; exact hwn
            have h2 := mem_updateQueueItemStatus_self QStatus.failed (some e) h1 hn1
            rw [applyStatusUpdate_id] at h2
            rw [failedRecord_eq] at h2
            exact h2
          obtain ⟨ht, hc, hfl, hnd, hids, hfr, hgone, hfail, hrem, hsy, hon⟩ :=
            ih { stats with failed := stats.failed + 1 } (stepFailWorld i e w)
              hsub2 hwn2 hin.2
          have hidsw : ∀ r ∈ (syncLoop env rest { stats with failed := stats.failed + 1 }
              (stepFailWorld i e w)).snd.store, r.id ∈ w.store.map (fun q => q.id) := by
            intro r hr
            rw [← hmapid2]
            exact hids r hr
          refine ⟨ht, ?_, ?_, hnd, hidsw, ?_, ?_, ?_, ?_, hsy, hon⟩
          · rw [hc, List.countP_cons]
            simp [hsucc]
          · rw [hfl, List.countP_cons]
            simp [hsucc]
            omega
          · intro r hr hnotin
            have hne : r.id ≠ i.id := by
              intro he
              exact hnotin (by rw [List.map_cons, he]; exact List.mem_cons_self _ _)
            have hnotrest : r.id ∉ rest.map (fun q => q.id) := by
              intro hm
              exact hnotin (by rw [List.map_cons]; exact List.mem_cons_of_mem _ hm)
            exact hfr r (hframe2 r hr hne) hnotrest
          · intro j hj hjs r hr
            rcases List.mem_cons.mp hj with rfl | hjr
            · rw [hjs] at hsucc
              cases hsucc
            · exact hgone j hjr hjs r hr
          · intro j hj e2 hje
            rcases List.mem_cons.mp hj with rfl | hjr
            · rw [hfi] at hje
              injection hje with he2
              rw [← he2]
              have : (failedRecord j e).id ∉ rest.map (fun q => q.id) := by
                have : (failedRecord j e).id = j.id := rfl
                rw [this]
                exact hin.1
              exact hfr (failedRecord j e) hfailmem this
            · exact hfail j hjr e2 hje
          · rw [hrem]
            rw [show (stepFailWorld i e w).remote = w.remote from rfl]
            rw [List.filter_cons_of_neg (by simp [hsucc])]

/-- Counting a predicate and its negation over a list covers its length. -/
theorem countP_true_add_countP_false (p : QueuedContribution → Bool)
    (l : List QueuedContribution) :
    l.countP p + l.countP (fun a => !(p a)) = l.length := by
  induction l with
  | nil => rfl
  | cons a t ih => cases hp : p a <;> simp [List.countP_cons, hp] <;> omega

/-- C7.  A completed pass over a store with unique ids reports total equal to
the number of items selected (status pending or failed at the start), with
completed plus failed equal to total; every selected item whose upload and
insert succeeded is gone from local storage afterwards, and every selected
item that failed at some step is retained as a record with status failed, its
retry count incremented by exactly one, and the captured (truthy) error
message recorded. -/
theorem syncQueue_pass_spec (env : SyncEnv) (w : SyncWorld)
    (hrun : w.isSyncing = false) (hon : w.online = true)
    (hn : (w.store.map (fun q => q.id)).Nodup) :
    (syncQueue env w).fst.total = (selectedItems w.store).length ∧
    (syncQueue env w).fst.completed + (syncQueue env w).fst.failed
      = (syncQueue env w).fst.total ∧
    (∀ i ∈ selectedItems w.store, itemSucceeds env i = true →
        ∀ r ∈ (syncQueue env w).snd.store, r.id ≠ i.id) ∧
    (∀ i ∈ selectedItems w.store, ∀ e, env.itemFailure i.id = some e →
        failedRecord i e ∈ (syncQueue env w).snd.store ∧
        (failedRecord i e).status = QStatus.failed ∧
        (failedRecord i e).retryCount = i.retryCount + 1 ∧
        (e ≠ "" → (failedRecord i e).error = some e)) := by
  have hq : syncQueue env w
      = ((syncLoop env (selectedItems w.store)
            { total := (selectedItems w.store).length, completed := 0, failed := 0 }
            { w with isSyncing := true }).fst,
         { (syncLoop env (selectedItems w.store)
            { total := (selectedItems w.store).length, completed := 0, failed := 0 }
            { w with isSyncing := true }).snd with isSyncing := false }) := by
    simp [syncQueue, hrun, hon, getOfflineQueue, selectedItems]
  have hsub : ∀ i ∈ selectedItems w.store,
      i ∈ ({ w with isSyncing := true } : SyncWorld).store := by
    intro i hi
    exact (List.mem_filter.mp hi).1
  have hin : ((selectedItems w.store).map (fun q => q.id)).Nodup :=
    List.Nodup.sublist (List.Sublist.map _ (List.filter_sublist w.store)) hn
  obtain ⟨ht, hc, hfl, hnd, hids, hfr, hgone, hfail, hrem, hsy, hon2⟩ :=
    syncLoop_spec env (selectedItems w.store)
      { total := (selectedItems w.store).length, completed := 0, failed := 0 }
      { w with isSyncing := true } hsub hn hin
  rw [hq]
  refine ⟨ht, ?_, ?_, ?_⟩
  · rw [ht, hc, hfl]
    simpa using countP_true_add_countP_false (itemSucceeds env) (selectedItems w.store)
  · intro i hi his r hr
    exact hgone i hi his r hr
  · intro i hi e hie
    refine ⟨hfail i hi e hie, rfl, rfl, ?_⟩
    intro hne
    simp [failedRecord, jsTruthy, hne]

/-- Three-item demo world: two pending items and one previously failed one. -/
def w3 : SyncWorld :=
  { store := [qItem ("a") QStatus.pending 0, qItem ("b") QStatus.pending 0,
              qItem ("c") QStatus.failed 1],
    remote := [], isSyncing := false, online := true }

/-- Demo environment in which exactly the second item fails its upload. -/
def env3 : SyncEnv :=
  { userId := some ("u9"), uploadUrl := fun n => ("https://cdn/") ++ n,
    itemFailure := fun i => if i = "b" then some ("upload failed") else none }

/-- Witness for C7 at the three-item demo world. -/
theorem syncQueue_pass_spec_witness :
    (syncQueue env3 w3).fst.total = (selectedItems w3.store).length ∧
    (syncQueue env3 w3).fst.completed + (syncQueue env3 w3).fst.failed
      = (syncQueue env3 w3).fst.total ∧
    (∀ i ∈ selectedItems w3.store, itemSucceeds env3 i = true →
        ∀ r ∈ (syncQueue env3 w3).snd.store, r.id ≠ i.id) ∧
    (∀ i ∈ selectedItems w3.store, ∀ e, env3.itemFailure i.id = some e →
        failedRecord i e ∈ (syncQueue env3 w3).snd.store ∧
        (failedRecord i e).status = QStatus.failed ∧
        (failedRecord i e).retryCount = i.retryCount + 1 ∧
        (e ≠ "" → (failedRecord i e).error = some e)) :=
  syncQueue_pass_spec env3 w3 rfl rfl (by decide)

/-- One sync pass keeps every record whose status is uploading or completed,
and keeps the id listing unique. -/
theorem syncQueue_preserves_untouched (env : SyncEnv) (w : SyncWorld)
    {u : QueuedContribution}
    (hn : (w.store.map (fun q => q.id)).Nodup) (hu : u ∈ w.store)
    (hst : u.status = QStatus.uploading ∨ u.status = QStatus.completed) :
    u ∈ (syncQueue env w).snd.store ∧
    (((syncQueue env w).snd.store.map (fun q => q.id)).Nodup) := by
  cases hb : w.isSyncing with
  | true =>
      simp only [syncQueue, hb, if_true]
      exact ⟨hu, hn⟩
  | false =>
      cases ho : w.online with
      | false =>
          simp only [syncQueue, hb, ho, Bool.not_false, if_true, Bool.false_eq_true,
            if_false]
          exact ⟨hu, hn⟩
      | true =>
          have hq : syncQueue env w
              = ((syncLoop env (selectedItems w.store)
                    { total := (selectedItems w.store).length, completed := 0, failed := 0 }
                    { w with isSyncing := true }).fst,
                 { (syncLoop env (selectedItems w.store)
                    { total := (selectedItems w.store).length, completed := 0, failed := 0 }
                    { w with isSyncing := true }).snd with isSyncing := false }) := by
            simp [syncQueue, hb, ho, getOfflineQueue, selectedItems]
          have hsub : ∀ i ∈ selectedItems w.store,
              i ∈ ({ w with isSyncing := true } : SyncWorld).store := by
            intro i hi
            exact (List.mem_filter.mp hi).1
          have hin : ((selectedItems w.store).map (fun q => q.id)).Nodup :=
            List.Nodup.sublist (List.Sublist.map _ (List.filter_sublist w.store)) hn
          obtain ⟨ht, hc, hfl, hnd, hids, hfr, hgone, hfail, hrem, hsy, hon2⟩ :=
            syncLoop_spec env (selectedItems w.store)
              { total := (selectedItems w.store).length, completed := 0, failed := 0 }
              { w with isSyncing := true } hsub hn hin
          have hunot : u.id ∉ (selectedItems w.store).map (fun q => q.id) := by
            intro hm
            rcases List.mem_map.mp hm with ⟨j, hj, hjid⟩
            have hjw : j ∈ w.store := (List.mem_filter.mp hj).1
            have hju : j = u := eq_of_mem_of_id_eq hn hjw hu hjid
            have hcond := (List.mem_filter.mp hj).2
            rw [hju] at hcond
            rcases hst with h | h <;> rw [h] at hcond <;> simp at hcond
          rw [hq]
          exact ⟨hfr u hu hunot, hnd⟩

/-- C10.  A sync pass only attempts items whose status is pending or failed
at its start: an item in status uploading or completed is never selected,
stays in the queue unchanged across any number of subsequent passes, and
every remote row a pass inserts comes from a selected item. -/
theorem untouched_item_survives_all_passes (w : SyncWorld)
    (u : QueuedContribution)
    (hn : (w.store.map (fun q => q.id)).Nodup) (hu : u ∈ w.store)
    (hst : u.status = QStatus.uploading ∨ u.status = QStatus.completed) :
    u ∉ selectedItems w.store ∧
    (∀ envs : List SyncEnv, u ∈ (syncPasses envs w).store) ∧
    (∀ env : SyncEnv, ∀ r ∈ (syncQueue env w).snd.remote,
        r ∈ w.remote ∨ ∃ i ∈ selectedItems w.store, r = mkRemoteContribution env i) := by
  refine ⟨?_, ?_, ?_⟩
  · intro hmem
    have hcond := List.of_mem_filter hmem
    rcases hst with h | h <;> rw [h] at hcond <;> simp at hcond
  · have main : ∀ envs : List SyncEnv, ∀ w2 : SyncWorld,
        (w2.store.map (fun q => q.id)).Nodup → u ∈ w2.store →
        u ∈ (syncPasses envs w2).store := by
      intro envs
      induction envs with
      | nil =>
          intro w2 hn2 hu2
          simpa [syncPasses] using hu2
      | cons env rest ih =>
          intro w2 hn2 hu2
          have hpass := syncQueue_preserves_untouched env w2 hn2 hu2 hst
          have hstep : syncPasses (env :: rest) w2
              = syncPasses rest (syncQueue env w2).snd := rfl
          rw [hstep]
          exact ih (syncQueue env w2).snd hpass.2 hpass.1
    intro envs
    exact main envs w hn hu
  · intro env r hr
    cases hb : w.isSyncing with
    | true =>
        simp only [syncQueue, hb, if_true] at hr
        exact Or.inl hr
    | false =>
        cases ho : w.online with
        | false =>
            simp only [syncQueue, hb, ho, Bool.not_false, if_true, Bool.false_eq_true,
              if_false] at hr
            exact Or.inl hr
        | true =>
            have hq : syncQueue env w
                = ((syncLoop env (selectedItems w.store)
                      { total := (selectedItems w.store).length, completed := 0, failed := 0 }
                      { w with isSyncing := true }).fst,
                   { (syncLoop env (selectedItems w.store)
                      { total := (selectedItems w.store).length, completed := 0, failed := 0 }
                      { w with isSyncing := true }).snd with isSyncing := false }) := by
              simp [syncQueue, hb, ho, getOfflineQueue, selectedItems]
            have hsub : ∀ i ∈ selectedItems w.store,
                i ∈ ({ w with isSyncing := true } : SyncWorld).store := by
              intro i hi
              exact (List.mem_filter.mp hi).1
            have hin : ((selectedItems w.store).map (fun q => q.id)).Nodup :=
              List.Nodup.sublist (List.Sublist.map _ (List.filter_sublist w.store)) hn
            obtain ⟨ht, hc, hfl, hnd, hids, hfr, hgone, hfail, hrem, hsy, hon2⟩ :=
              syncLoop_spec env (selectedItems w.store)
                { total := (selectedItems w.store).length, completed := 0, failed := 0 }
                { w with isSyncing := true } hsub hn hin
            rw [hq] at hr
            have hr2 : r ∈ ({ w with isSyncing := true } : SyncWorld).remote ++
                ((selectedItems w.store).filter (itemSucceeds env)).map
                  (mkRemoteContribution env) := by
              rw [← hrem]
              exact hr
            rcases List.mem_append.mp hr2 with h | h
            · exact Or.inl h
            · rcases List.mem_map.mp h with ⟨i, hi, hieq⟩
              exact Or.inr ⟨i, List.mem_of_mem_filter hi, hieq.symm⟩

/-- World holding an item stuck in uploading next to a pending one. -/
def w10 : SyncWorld :=
  { store := [qItem ("u") QStatus.uploading 2, qItem ("p") QStatus.pending 0],
    remote := [], isSyncing := false, online := true }

/-- Witness for C10: the stuck uploading item survives two demo passes. -/
theorem untouched_item_survives_witness :
    qItem ("u") QStatus.uploading 2 ∉ selectedItems w10.store ∧
    (∀ envs : List SyncEnv,
        qItem ("u") QStatus.uploading 2 ∈ (syncPasses envs w10).store) ∧
    (∀ env : SyncEnv, ∀ r ∈ (syncQueue env w10).snd.remote,
        r ∈ w10.remote ∨
          ∃ i ∈ selectedItems w10.store, r = mkRemoteContribution env i) :=
  untouched_item_survives_all_passes w10 (qItem ("u") QStatus.uploading 2)
    (by decide) (by decide) (Or.inl rfl)

/-- countP is unchanged by mapping a function that preserves the predicate. -/
theorem countP_map_preserving {A : Type} (f : A → A) (p : A → Bool)
    (hf : ∀ x, p (f x) = p x) (l : List A) :
    (l.map f).countP p = l.countP p := by
  induction l with
  | nil => rfl
  | cons a t ih => simp [List.countP_cons, hf, ih]

/-- If at most one classification row carried the contribution id before the
upsert (the UNIQUE constraint on classifications.contribution_id), exactly one
carries it afterwards. -/
theorem upsert_count_one (a : ClassifyArgs) (now : Nat)
    (cls : List ClassificationRow) (nextId : Nat)
    (h : cls.countP (fun c => decide (c.contribution_id = a.contribution_id)) ≤ 1) :
    ((upsertClassification a now cls nextId).snd.fst).countP
      (fun c => decide (c.contribution_id = a.contribution_id)) = 1 := by
  unfold upsertClassification
  cases hf : cls.find? (fun c => decide (c.contribution_id = a.contribution_id)) with
  | none =>
      have h0 : cls.countP (fun c => decide (c.contribution_id = a.contribution_id)) = 0 := by
        refine List.countP_eq_zero.mpr ?_
        intro c hc
        exact List.find?_eq_none.mp hf c hc
      simp [List.countP_append, h0]
  | some ex =>
      have hmem := List.mem_of_find?_eq_some hf
      have hex := List.find?_some hf
      have hpos : 0 < cls.countP (fun c => decide (c.contribution_id = a.contribution_id)) :=
        List.countP_pos_iff.mpr ⟨ex, hmem, hex⟩
      have heq : cls.countP (fun c => decide (c.contribution_id = a.contribution_id)) = 1 := by
        omega
      refine Eq.trans (countP_map_preserving _ _ ?_ cls) heq
      intro c
      by_cases hcc : c.contribution_id = a.contribution_id <;> simp [hcc]

/-- C1.  Whenever classify_contribution returns success on a state whose
classification table satisfies its uniqueness constraint, exactly one
classification row for the contribution remains (the upsert on the
contribution_id conflict key), and exactly one review-history row is
appended, whose action is reclassified when the status read at the start of
the call was classified, and classified otherwise. -/
theorem classify_success_upserts_one_and_logs (ctx : AuthContext)
    (schema : List String) (a : ClassifyArgs) (st : DBState)
    (huniq : countClassifications st a.contribution_id ≤ 1)
    (hsucc : (classify_contribution ctx schema a st).fst.success = true) :
    countClassifications (classify_contribution ctx schema a st).snd a.contribution_id = 1 ∧
    ∃ entry : HistoryRow,
      (classify_contribution ctx schema a st).snd.review_history
        = st.review_history ++ [entry] ∧
      entry.contribution_id = a.contribution_id ∧
      entry.admin_id = a.admin_id ∧
      entry.new_status = some ("classified") ∧
      entry.previous_status = statusOf st a.contribution_id ∧
      (statusOf st a.contribution_id = some ("classified") →
        entry.action = "reclassified") ∧
      (statusOf st a.contribution_id ≠ some ("classified") →
        entry.action = "classified") := by
  cases hbody : classifyBody ctx schema a st with
  | error e => simp [classify_contribution, hbody] at hsucc
  | ok v =>
      obtain ⟨cid, prev, st1⟩ := v
      have hres : (classify_contribution ctx schema a st).snd = st1 := by
        simp [classify_contribution, hbody]
      rw [hres]
      unfold classifyBody at hbody
      cases hadm : is_admin ctx with
      | false => rw [hadm] at hbody; simp at hbody
      | true =>
          rw [hadm] at hbody
          by_cases hconf : a.confidence_level ∈ (["high", "medium", "low"] : List String)
          case neg => simp [hconf] at hbody
          case pos =>
          cases hf : st.contributions.find? (fun r => decide (r.id = a.contribution_id)) with
          | none => rw [hf] at hbody; simp [hconf] at hbody
          | some row =>
              rw [hf] at hbody
              cases hru : runUpdate schema ["status"]
                  (fun r => if r.id = a.contribution_id then { r with status := "classified" } else r)
                  st.contributions with
              | error e2 => rw [hru] at hbody; simp [hconf] at hbody
              | ok contributions1 =>
                  rw [hru] at hbody
                  simp only [hconf, decide_True, List.mem_cons, Bool.not_true,
                    Bool.false_eq_true, if_false, decide_eq_true_eq, Except.ok.injEq,
                    Prod.mk.injEq] at hbody
                  obtain ⟨hcid, hprev, hst1⟩ := hbody
                  rw [← hst1]
                  have hstatus : statusOf st a.contribution_id = some row.status := by
                    simp [statusOf, hf]
                  constructor
                  · exact upsert_count_one a ctx.now st.classifications
                      st.nextClassificationId huniq
                  · refine ⟨_, rfl, rfl, rfl, rfl, ?_, ?_, ?_⟩
                    · rw [hstatus]
                    · intro hcl
                      rw [hstatus, Option.some.injEq] at hcl
                      simp [hcl]
                    · intro hcl
                      rw [hstatus] at hcl
                      have hne : row.status ≠ "classified" := by
                        intro he
                        exact hcl (by rw [he])
                      simp [hne]

/-- Witness for C1 on a pending demo contribution and the final schema. -/
theorem classify_success_upserts_witness :
    countClassifications (classify_contribution adminCtx finalContributionColumns
        demoClassifyArgs (engineDemoState ("pending"))).snd ("c1") = 1 ∧
    ∃ entry : HistoryRow,
      (classify_contribution adminCtx finalContributionColumns demoClassifyArgs
          (engineDemoState ("pending"))).snd.review_history
        = (engineDemoState ("pending")).review_history ++ [entry] ∧
      entry.contribution_id = "c1" ∧
      entry.admin_id = "a1" ∧
      entry.new_status = some ("classified") ∧
      entry.previous_status = statusOf (engineDemoState ("pending")) ("c1") ∧
      (statusOf (engineDemoState ("pending")) ("c1") = some ("classified") →
        entry.action = "reclassified") ∧
      (statusOf (engineDemoState ("pending")) ("c1") ≠ some ("classified") →
        entry.action = "classified") :=
  classify_success_upserts_one_and_logs adminCtx finalContributionColumns
    demoClassifyArgs (engineDemoState ("pending")) (by decide) (by decide)
